import Mathlib

/-!
Verification development for the MEGAlib dual-run comparison repository
(`dataflow_class.py`, `Supervisor.py`, `Steering.py`, `Comparator.py`,
`Reporter.py`, `test.py`).

The Python code is shallowly embedded here:

* Strings are modelled as `List Char` (converted from Lean `String`
  literals with `.data`), and the handful of Python string operations the
  code uses (`split(sep)`, `split(sep, 1)`, `strip()`, `find`, `in`,
  `replace`, `splitlines`, whitespace `split()`, `os.path.splitext`)
  are implemented below with the same semantics on those operations'
  actually-exercised inputs (non-empty separators).
* Python `float(...)` literals are parsed into exact rationals `ℚ`
  (sign, integer part, fractional part, decimal exponent); Python
  `int(...)` into `ℤ`.  No claim below depends on binary floating-point
  rounding: parsed values are only stored, compared and copied.
* The filesystem is an association list from path to file text; an
  external tool invocation is an environment function from the argument
  vector and the current filesystem to an exit code and a new
  filesystem.  Python exceptions become an explicit `Except PyErr`
  channel; a Python function that merely prints and returns is total.
-/

namespace URAP

/-! ## Python-style string primitives over `List Char` -/

/-- `strStartsWith pat s` is true when `pat` is an initial segment of `s`. -/
def strStartsWith : List Char → List Char → Bool
  | [], _ => true
  | _ :: _, [] => false
  | p :: ps, c :: cs => p == c && strStartsWith ps cs

/-- First-occurrence split: `splitOnce sep s = some (a, b)` when
`s = a ++ sep ++ b` at the leftmost occurrence of `sep`, `none` when `sep`
does not occur.  This is Python's `s.split(sep, 1)` (which yields two
pieces exactly when `sep` occurs). -/
def splitOnce (sep : List Char) : List Char → Option (List Char × List Char)
  | [] => none
  | c :: rest =>
    if strStartsWith sep (c :: rest) then some ([], rest.drop (sep.length - 1))
    else (splitOnce sep rest).map (fun p => (c :: p.1, p.2))

/-- Structural worker for `splitAll`; the fuel is an upper bound on the
number of splits and never runs out when started at `s.length`
(each split strictly shrinks the remainder, `splitOnce_snd_lt` below). -/
def splitAllFuel (sep : List Char) : Nat → List Char → List (List Char)
  | 0, s => [s]
  | fuel + 1, s =>
    match splitOnce sep s with
    | none => [s]
    | some p => p.1 :: splitAllFuel sep fuel p.2

/-- Python's `s.split(sep)` for a non-empty separator. -/
def splitAll (sep : List Char) (s : List Char) : List (List Char) :=
  splitAllFuel sep s.length s

/-- Python's substring containment `sep in s` (for non-empty `sep`). -/
def containsSub (sep s : List Char) : Bool :=
  (splitOnce sep s).isSome

/-- Python's `s.strip()` (whitespace removal at both ends). -/
def pyStrip (s : List Char) : List Char :=
  ((s.dropWhile Char.isWhitespace).reverse.dropWhile Char.isWhitespace).reverse

/-- Join pieces back with a separator; inverse direction of `splitAll`,
used to model Python's `s.replace(old, new)`. -/
def joinWith (sep : List Char) : List (List Char) → List Char
  | [] => []
  | [x] => x
  | x :: y :: xs => x ++ sep ++ joinWith sep (y :: xs)

/-- Python's `s.replace(old, new)` for non-empty `old`. -/
def replaceAll (old new s : List Char) : List Char :=
  joinWith new (splitAll old s)

/-- Structural worker for `pyWords`; fuel `s.length` always suffices
because each step consumes at least one character. -/
def pyWordsFuel : Nat → List Char → List (List Char)
  | _, [] => []
  | 0, s => [s]
  | fuel + 1, c :: rest =>
    if c.isWhitespace then pyWordsFuel fuel rest
    else
      ((c :: rest).takeWhile (fun x => !x.isWhitespace)) ::
        pyWordsFuel fuel ((c :: rest).dropWhile (fun x => !x.isWhitespace))

/-- Python's whitespace `s.split()`: maximal runs of non-whitespace. -/
def pyWords (s : List Char) : List (List Char) :=
  pyWordsFuel s.length s

/-- Value of a digit string, most significant first. -/
def digitsToNat (ds : List Char) : Nat :=
  ds.foldl (fun a c => a * 10 + (c.toNat - 48)) 0

/-- Python's `int(s)` on an already-stripped string: optional sign and a
non-empty run of decimal digits, `none` on anything else (`ValueError`). -/
def pyInt? (s : List Char) : Option Int :=
  let p : Int × List Char :=
    match s with
    | '+' :: r => (1, r)
    | '-' :: r => (-1, r)
    | r => (1, r)
  if p.2 ≠ [] ∧ p.2.all Char.isDigit then some (p.1 * digitsToNat p.2) else none

/-- Python's `float(s)` on an already-stripped string, as an exact
rational: optional sign, integer and/or fractional digits, optional
decimal exponent.  (`inf`/`nan` spellings are not modelled: the artifacts
under parse never contain them and no claim turns on them.) -/
def pyFloat? (s : List Char) : Option ℚ :=
  let sp : ℚ × List Char :=
    match s with
    | '+' :: r => (1, r)
    | '-' :: r => (-1, r)
    | r => (1, r)
  let ip := sp.2.takeWhile Char.isDigit
  let s2 := sp.2.dropWhile Char.isDigit
  let fr : List Char × List Char :=
    match s2 with
    | '.' :: r => (r.takeWhile Char.isDigit, r.dropWhile Char.isDigit)
    | r => ([], r)
  if ip = [] ∧ fr.1 = [] then none
  else if fr.2 = [] ∧ s2 ≠ [] ∧ s2.head? ≠ some '.' then none
  else
    let mant : ℚ := sp.1 * ((digitsToNat ip : ℚ) +
      (digitsToNat fr.1 : ℚ) / ((10 : ℚ) ^ fr.1.length))
    match fr.2 with
    | [] => some mant
    | 'e' :: r | 'E' :: r =>
      let ep : Int × List Char :=
        match r with
        | '+' :: r2 => (1, r2)
        | '-' :: r2 => (-1, r2)
        | r2 => (1, r2)
      if ep.2 ≠ [] ∧ ep.2.all Char.isDigit then
        some (mant * (10 : ℚ) ^ (ep.1 * digitsToNat ep.2))
      else none
    | _ => none

/-- Left brace character (written by code point to keep braces out of
string literals). -/
def lbrace : Char := Char.ofNat 123

/-- Right brace character. -/
def rbrace : Char := Char.ofNat 125

/-- Newline character used by `splitlines` modelling. -/
def nlChar : Char := '\n'

/-- `os.path.splitext(p)[0]`: drop the final `.ext` of the basename,
where a run of leading dots of the basename never starts an extension. -/
def pySplitextRoot (p : String) : String :=
  let cs := p.data
  let parts := splitAll ['/'] cs
  let base := parts.getLast!
  let dirLen := cs.length - base.length
  let dirPart := cs.take dirLen
  let dots := base.takeWhile (fun c => c == '.')
  let rest := base.dropWhile (fun c => c == '.')
  let root :=
    match splitOnce ['.'] rest.reverse with
    | none => base
    | some q => dots ++ q.2.reverse
  String.mk (dirPart ++ root)

/-! ## Macro extraction — `DataFlow.extract_energy_list` core parse

`dataflow_class.py` parses the `spectrum.C` macro text: it locates the
x-axis edge vector (`std::vector<Double_t> ... { e0, e1, ... };`), then
scans every line for `SetBinContent(i, value)` assignments. -/

/-- The type marker Python searches for: `start_key = "std::vector<Double_t>"`. -/
def vecKey : List Char := "std::vector<Double_t>".data

/-- The per-bin assignment marker: `"SetBinContent("`. -/
def sbcKey : List Char := "SetBinContent(".data

/-- Locate the literal body between the brace after the vector type
marker and the following two-character terminator (close brace then
semicolon), exactly as the Python `text.find(start_key)` /
`text.find(brace, vec_start)` / `text.find(terminator, brace_open)`
sequence does; `none` reproduces each of its three early returns. -/
def findVecBody (cs : List Char) : Option (List Char) :=
  match splitOnce vecKey cs with
  | none => none
  | some p =>
    match splitOnce [lbrace] p.2 with
    | none => none
    | some q =>
      match splitOnce [rbrace, ';'] q.2 with
      | none => none
      | some r => some r.1

/-- Parse the comma-separated vector body: stripped empty tokens are
skipped, tokens that fail `float(...)` are skipped (`except: pass`),
everything else is appended in order. -/
def parseEdges (body : List Char) : List ℚ :=
  (splitAll [','] body).foldl
    (fun acc tok =>
      let t := pyStrip tok
      if t = [] then acc
      else
        match pyFloat? t with
        | some q => acc ++ [q]
        | none => acc)
    []

/-- Parse one line for a `SetBinContent(i, value)` assignment: strip the
line; skip it unless it contains `SetBinContent(`; take the text after
the first `SetBinContent(` up to the first `)` (or all of it if `)` is
absent); split at the first comma (no comma → `ValueError` → skip);
parse the index with `int(...)` and the value with `float(...)`
(failure → skip). -/
def parseSetBin (line : List Char) : Option (Int × ℚ) :=
  let l := pyStrip line
  match splitOnce sbcKey l with
  | none => none
  | some p =>
    let inside :=
      match splitOnce [')'] p.2 with
      | some q => q.1
      | none => p.2
    match splitOnce [','] inside with
    | none => none
    | some q =>
      match pyInt? (pyStrip q.1), pyFloat? (pyStrip q.2) with
      | some i, some v => some (i, v)
      | _, _ => none

/-- Apply one line to the count array: only a successfully parsed
assignment whose 1-based index lies in `1 ≤ idx ≤ n` updates position
`idx - 1` (ROOT reserves index 0 and `n+1` for under/overflow); every
other line leaves the array untouched. -/
def applyLine (n : Nat) (bins : List ℚ) (line : List Char) : List ℚ :=
  match parseSetBin line with
  | none => bins
  | some iv =>
    if 1 ≤ iv.1 ∧ iv.1 ≤ (n : Int) then bins.set (iv.1 - 1).toNat iv.2 else bins

/-- Fold `applyLine` over all lines of the macro text. -/
def processLines (n : Nat) (lines : List (List Char)) (bins : List ℚ) : List ℚ :=
  lines.foldl (applyLine n) bins

/-- The pure core of `DataFlow.extract_energy_list`: from the macro text
to `(bins, edges)`.  `none` models each of the diagnostic-print-and-
return paths (vector declaration or its braces not found, or fewer than
2 parsed edges); on success the count array starts as
`[0.0] * (len(edges) - 1)` and every line is scanned. -/
def extractHistFromText (text : String) : Option (List ℚ × List ℚ) :=
  match findVecBody text.data with
  | none => none
  | some body =>
    let edges := parseEdges body
    if edges.length < 2 then none
    else
      let n := edges.length - 1
      some (processLines n (splitAll [nlChar] text.data) (List.replicate n (0 : ℚ)), edges)

/-- The record `generate_histogram` persists:
`hist_data = {"bins": list(bins), "edges": list(edges)}` — an ordered
record with exactly these two keys. -/
def histRecord (bins edges : List ℚ) : List (String × List ℚ) :=
  [("bins", bins), ("edges", edges)]

/-! ## Pipeline model — `dataflow_class.py`

The filesystem is an association list from path to file text (`fsWrite`
shadows by prepending); an external tool is an environment function from
the argument vector and current filesystem to an exit code and a new
filesystem.  Python exceptions are an explicit `Except PyErr` channel;
functions that only print and return are total.  Each invoked command is
appended to an observation trace. -/

/-- Python exception values raised by `dataflow_class.py`. -/
inductive PyErr where
  /-- `RuntimeError(f"Command failed (code {returncode}): {cmd}")` from `run_command`. -/
  | cmdFailed (code : Int) (cmd : List String)
  /-- `FileNotFoundError(f"Macro not found: {macro_path}")`. -/
  | fileNotFound (path : String)
  /-- `ValueError(f"Could not find closing brace in macro: {macro_path}")`. -/
  | valueErr (path : String)
  /-- `RuntimeError` with a descriptive message (missing function name, missing PNG). -/
  | runtimeErr (msg : String)
  /-- An uncaught `IndexError` (e.g. `line.split()[1]` on a one-word line). -/
  | indexErr
deriving DecidableEq, Repr

/-- Filesystem: path ↦ file text, latest write first. -/
def FS := List (String × String)
deriving DecidableEq

/-- Read a file (`None` = the file does not exist). -/
def fsRead (fs : FS) (p : String) : Option String :=
  List.lookup p fs

/-- `Path.exists()`. -/
def fsExists (fs : FS) (p : String) : Bool :=
  (fsRead fs p).isSome

/-- `open(p, "w").write(t)`. -/
def fsWrite (fs : FS) (p t : String) : FS :=
  (p, t) :: fs

/-- Environment of external tools: argument vector and current
filesystem to exit code and new filesystem. -/
structure ToolEnv where
  run : List String → FS → Int × FS

/-- Orchestrator state: the filesystem plus the trace of every external
command invoked so far. -/
structure PipeState where
  fs : FS
  trace : List (List String)
deriving DecidableEq

/-- The `DataFlow` instance fields read from `steering_config.json`
(`cosima_file`, `geometry_file`, `revan_cfg := config["revan_output"]`,
`mimrec_cfg := config["mimrec_output"]`) plus `dir`, the directory the
JSON lives in. -/
structure DataFlow where
  cosima_file : String
  geometry_file : String
  revan_cfg : String
  mimrec_cfg : String
  dir : String
deriving DecidableEq

/-- `self.output_dir = self.dir / "results"`. -/
def output_dir (df : DataFlow) : String := df.dir ++ "/results"

/-- `pathlib`-style join: an absolute second component replaces the first. -/
def pathJoin (a b : String) : String :=
  if b.data.head? = some '/' then b else a ++ "/" ++ b

/-- `run_type = "reference" if "run_ref" in str(self.dir) else "test"` —
the run label is inferred from the directory path alone. -/
def run_type_of (d : String) : String :=
  if containsSub "run_ref".data d.data then "reference" else "test"

/-- `out_file = self.output_dir / f"{run_type}_energy.txt"`. -/
def energy_out_file (df : DataFlow) : String :=
  output_dir df ++ "/" ++ run_type_of df.dir ++ "_energy.txt"

/-- `png_path = self.output_dir / f"{run_type}_spectrum.png"`. -/
def spectrum_png_path (df : DataFlow) : String :=
  output_dir df ++ "/" ++ run_type_of df.dir ++ "_spectrum.png"

/-- `DataFlow.run_command`: invoke the tool, record it, and raise
`RuntimeError` exactly when the exit code is non-zero.  (The source also
streams the tool's output; that has no observable effect here.) -/
def run_command (env : ToolEnv) (st : PipeState) (cmd : List String) :
    PipeState × Except PyErr Unit :=
  let r := env.run cmd st.fs
  (⟨r.2, st.trace ++ [cmd]⟩,
    if r.1 = 0 then Except.ok () else Except.error (PyErr.cmdFailed r.1 cmd))

/-- Argument vector of stage 1 (`cosima`). -/
def cosima_cmd (df : DataFlow) : List String :=
  ["cosima", df.cosima_file]

/-- `base + ".inc1.id1.sim.gz"` with `base = os.path.splitext(cosima_file)[0]`. -/
def sim_file (df : DataFlow) : String :=
  pySplitextRoot df.cosima_file ++ ".inc1.id1.sim.gz"

/-- `base + ".inc1.id1.tra.gz"`. -/
def tra_file (df : DataFlow) : String :=
  pySplitextRoot df.cosima_file ++ ".inc1.id1.tra.gz"

/-- Argument vector of stage 2 (`revan`). -/
def revan_cmd (df : DataFlow) : List String :=
  ["revan", "-c", df.revan_cfg, "-g", df.geometry_file, "-f", sim_file df, "-a", "-n"]

/-- Argument vector of stage 3 (`mimrec -s`). -/
def mimrec_cmd (df : DataFlow) : List String :=
  ["mimrec", "-c", df.mimrec_cfg, "-g", df.geometry_file, "-f", tra_file df,
    "-s", "-o", output_dir df ++ "/spectrum.C"]

/-- `DataFlow.run_simulation`. -/
def run_simulation (df : DataFlow) (env : ToolEnv) (st : PipeState) :
    PipeState × Except PyErr Unit :=
  run_command env st (cosima_cmd df)

/-- `DataFlow.run_reconstruction`.  The source checks whether the
simulation file exists but only prints `"Warning: Missing simulation
file"` — it runs `revan` regardless, and never checks for the
reconstruction output afterwards. -/
def run_reconstruction (df : DataFlow) (env : ToolEnv) (st : PipeState) :
    PipeState × Except PyErr Unit :=
  run_command env st (revan_cmd df)

/-- `DataFlow.run_spectrum_macro` (renamed): prints a warning when the
tracking file is missing, runs `mimrec`, and returns the chosen output
path `macro_out` without checking that the file was produced. -/
def run_spectrum_stage (df : DataFlow) (env : ToolEnv) (st : PipeState) :
    PipeState × Except PyErr String :=
  let r := run_command env st (mimrec_cmd df)
  (r.1, r.2.map (fun _ => output_dir df ++ "/spectrum.C"))

/-- `str(b)` rendering of the per-bin debug text file (one value per line). -/
def renderBinsTxt (bins : List ℚ) : String :=
  String.mk (joinWith [nlChar] (bins.map (fun b => (toString b).data))) ++ "\n"

/-- JSON rendering of the `{"bins": ..., "edges": ...}` record.  The
precise serialization is irrelevant to the claims; the record structure
itself is `histRecord`. -/
def renderHistRecord (r : List (String × List ℚ)) : String :=
  toString (r.map (fun p => (p.1, toString p.2)))

/-- `DataFlow.extract_energy_list`: read `results/spectrum.C`; on any of
the early-return paths (file missing, no parseable edge vector, fewer
than 2 edges) print a diagnostic and return with nothing written and no
exception; on success write the `{run_type}_energy.txt` debug file and
(via `generate_histogram`) the `energy_hist.json` record. -/
def extract_energy_list (df : DataFlow) (st : PipeState) : PipeState :=
  let spectrum := output_dir df ++ "/spectrum.C"
  match fsRead st.fs spectrum with
  | none => st
  | some text =>
    match extractHistFromText text with
    | none => st
    | some be =>
      let fs1 := fsWrite st.fs (energy_out_file df) (renderBinsTxt be.1)
      let fs2 := fsWrite fs1 (output_dir df ++ "/energy_hist.json")
        (renderHistRecord (histRecord be.1 be.2))
      ⟨fs2, st.trace⟩

/-- The three include lines `_ensure_includes` may add. -/
def includeLines : List String :=
  ["#include <TCanvas.h>", "#include <TStyle.h>", "#include <TColor.h>"]

/-- `DataFlow._ensure_includes`: if any of the includes is already
present, leave the text alone; otherwise insert the include block after
the first `#endif` line (or at the top). -/
def ensure_includes (text : List Char) : List Char :=
  if includeLines.any (fun inc => containsSub inc.data text) then text
  else
    let lines := splitAll [nlChar] text
    let insert_at :=
      match lines.findIdx? (fun l => pyStrip l = "#endif".data) with
      | some i => i + 1
      | none => 0
    let block := joinWith [nlChar] (includeLines.map String.data) ++ [nlChar]
    joinWith [nlChar] (lines.take insert_at ++ [block] ++ lines.drop insert_at)

/-- Insert `ins` just before the last right brace of `text`
(`text[:idx] + ins + "\n" + text[idx:]` with `idx = text.rfind(rbrace)`);
`none` when no right brace occurs. -/
def insertBeforeLastBrace (text ins : List Char) : Option (List Char) :=
  match splitOnce [rbrace] text.reverse with
  | none => none
  | some p => some (p.2.reverse ++ ins ++ [nlChar] ++ [rbrace] ++ p.1.reverse)

/-- `DataFlow.patch_macro_for_png` (renamed): raise `FileNotFoundError`
when the macro is absent; repair the known-bad function name; ensure the
includes; add a `SaveAs` line before the final brace when none is
present (`ValueError` when there is no closing brace); write the patched
text next to the macro as `<stem>_png.C` and return its path. -/
def patch_for_png (fs : FS) (macro_path png_path : String) :
    Except PyErr (String × FS) :=
  match fsRead fs macro_path with
  | none => Except.error (PyErr.fileNotFound macro_path)
  | some text =>
    let t1 := replaceAll "void MaxObservingCrab.spectrum()".data
      "void MaxObservingCrab_spectrum()".data text.data
    let t2 := ensure_includes t1
    let save := ("  c1->SaveAs(\"" ++ png_path ++ "\");").data
    let t3? : Except PyErr (List Char) :=
      if containsSub "SaveAs(".data t2 then Except.ok t2
      else
        match insertBeforeLastBrace t2 save with
        | none => Except.error (PyErr.valueErr macro_path)
        | some t => Except.ok t
    match t3? with
    | Except.error e => Except.error e
    | Except.ok t3 =>
      let patched_path := pySplitextRoot macro_path ++ "_png.C"
      Except.ok (patched_path, fsWrite fs patched_path (String.mk t3))

/-- Last path component (`Path.name`). -/
def baseName (p : String) : String :=
  String.mk ((splitAll ['/'] p.data).getLast!)

/-- The `root -l -b -q -e ".L <name>" -e "<func>()"` argument vector. -/
def root_cmd (mname func : String) : List String :=
  ["root", "-l", "-b", "-q", "-e", ".L " ++ mname, "-e", func ++ "()"]

/-- `DataFlow.run_root_macro` (renamed): scan the patched macro for the
first stripped line starting with `"void "`, take the second
whitespace-word up to the first `(` as the function name
(`RuntimeError` when no such line exists, `IndexError` when the line has
no second word), then run ROOT from the macro's directory. -/
def run_root_exec (env : ToolEnv) (st : PipeState) (macro_path : String) :
    PipeState × Except PyErr Unit :=
  match fsRead st.fs macro_path with
  | none => (st, Except.error (PyErr.fileNotFound macro_path))
  | some text =>
    let voidLine? := (splitAll [nlChar] text.data).findSome?
      (fun l =>
        let ls := pyStrip l
        if strStartsWith "void ".data ls then some ls else none)
    match voidLine? with
    | none => (st, Except.error (PyErr.runtimeErr
        ("Could not find macro function name in: " ++ macro_path)))
    | some ls =>
      match (pyWords ls).get? 1 with
      | none => (st, Except.error PyErr.indexErr)
      | some w =>
        let func :=
          match splitOnce ['('] w with
          | some q => q.1
          | none => w
        run_command env st (root_cmd (baseName macro_path) (String.mk func))

/-- `DataFlow.make_spectrum_png`: patch the macro, run ROOT on the
patched copy, then insist the PNG exists (`RuntimeError` otherwise) —
the one stage that does verify its output artifact. -/
def make_spectrum_png (df : DataFlow) (env : ToolEnv) (st : PipeState) :
    PipeState × Except PyErr String :=
  let mpath := output_dir df ++ "/spectrum.C"
  let png := spectrum_png_path df
  match patch_for_png st.fs mpath png with
  | Except.error e => (st, Except.error e)
  | Except.ok pr =>
    let st1 : PipeState := ⟨pr.2, st.trace⟩
    let r := run_root_exec env st1 pr.1
    match r.2 with
    | Except.error e => (r.1, Except.error e)
    | Except.ok _ =>
      if fsExists r.1.fs png then (r.1, Except.ok png)
      else (r.1, Except.error (PyErr.runtimeErr
        ("ROOT macro ran but PNG not found at " ++ png)))

/-- `DataFlow.run_full_pipeline`: the five steps in order, aborting at
the first raised exception; on success write `spectrum_meta.json` and
return the PNG path. -/
def run_full_pipeline (df : DataFlow) (env : ToolEnv) (fs0 : FS) :
    PipeState × Except PyErr String :=
  let r1 := run_simulation df env ⟨fs0, []⟩
  match r1.2 with
  | Except.error e => (r1.1, Except.error e)
  | Except.ok _ =>
    let r2 := run_reconstruction df env r1.1
    match r2.2 with
    | Except.error e => (r2.1, Except.error e)
    | Except.ok _ =>
      let r3 := run_spectrum_stage df env r2.1
      match r3.2 with
      | Except.error e => (r3.1, Except.error e)
      | Except.ok _ =>
        let st4 := extract_energy_list df r3.1
        let r5 := make_spectrum_png df env st4
        match r5.2 with
        | Except.error e => (r5.1, Except.error e)
        | Except.ok png =>
          (⟨fsWrite r5.1.fs (output_dir df ++ "/spectrum_meta.json") png,
            r5.1.trace⟩, Except.ok png)

/-- `true` exactly on the success channel. -/
def isOkB {α : Type} : Except PyErr α → Bool
  | Except.ok _ => true
  | Except.error _ => false

/-- `true` exactly on a `run_command` failure (`RuntimeError` for a
non-zero exit code). -/
def isCmdFailedB {α : Type} : Except PyErr α → Bool
  | Except.error (PyErr.cmdFailed _ _) => true
  | _ => false

/-! ## ComparisonEngine — modelled from the spec

`src/Supervisor.py` drives `Comparator(ref_json=..., test_json=...,
output_json=..., histogram_output_dir=..., sigma_threshold=3.0)` from a
lowercase `comparator` module that is not among the repository's source
files; only this caller is.  The engine itself is therefore modelled
from the specification (§4.3 "ComparisonEngine"), not translated from
code.  Two numeric primitives the spec delegates to the host's
statistics library are taken as parameters: the square root used for
sigma (`sqrtFn`) and the two-sample Kolmogorov–Smirnov procedure
(`ks`, returning the pair statistic/p-value). -/

/-- Modelled from the spec: the canonical Histogram — ordered bin counts
and ordered bin edges. -/
structure Histogram where
  counts : List ℚ
  edges : List ℚ
deriving DecidableEq

/-- Modelled from the spec: "bin centers = midpoint of each
`[edges[i], edges[i+1])`". -/
def binCenters (edges : List ℚ) : List ℚ :=
  List.zipWith (fun a b => (a + b) / 2) edges edges.tail

/-- Total counts of a histogram. -/
def totalCounts (h : Histogram) : ℚ := h.counts.sum

/-- Count-weighted sum of `f` over the bin centers. -/
def weightedSum (h : Histogram) (f : ℚ → ℚ) : ℚ :=
  (List.zip (binCenters h.edges) h.counts).foldl (fun a p => a + p.2 * f p.1) 0

/-- Modelled from the spec: "Mean = count-weighted average of centers",
with mean 0 when the counts sum to zero (degenerate data). -/
def histMean (h : Histogram) : ℚ :=
  if totalCounts h = 0 then 0 else weightedSum h (fun x => x) / totalCounts h

/-- Modelled from the spec: "Variance = count-weighted average of squared
deviation from mean", 0 on degenerate data. -/
def histVar (h : Histogram) : ℚ :=
  if totalCounts h = 0 then 0
  else weightedSum h (fun x => (x - histMean h) ^ 2) / totalCounts h

/-- Modelled from the spec: "Sigma = square root of variance", 0 on
degenerate data; the square-root primitive is the parameter `sqrtFn`. -/
def histSigma (sqrtFn : ℚ → ℚ) (h : Histogram) : ℚ :=
  if totalCounts h = 0 then 0 else sqrtFn (histVar h)

/-- Modelled from the spec: "each histogram is expanded into a flat
sequence of observations by repeating each bin center `count[i]` times
(counts are integers for this purpose; truncation if fractional)". -/
def sampleExpansion (h : Histogram) : List ℚ :=
  ((List.zip (binCenters h.edges) h.counts).map
    (fun p => List.replicate p.2.floor.toNat p.1)).flatten

/-- Modelled from the spec: "a large sentinel value" reported for the
relative sigma difference when `sigma_ref == 0`. -/
def sigmaSentinel : ℚ := 10 ^ 9

/-- Modelled from the spec: the ComparisonResult record — reference/test
mean and sigma, their absolute difference, the relative significance
ratio, the KS statistic and p-value, and the boolean verdict. -/
structure ComparisonResult where
  ref_mean : ℚ
  ref_sigma : ℚ
  test_mean : ℚ
  test_sigma : ℚ
  sigma_diff : ℚ
  rel_sigma : ℚ
  ks_stat : ℚ
  ks_p : ℚ
  pass : Bool
deriving DecidableEq

/-- Modelled from the spec: the comparison.  Both histograms are
expanded; when either expansion is empty the KS test is not run, the
statistic/p-value are reported as 0 and the verdict is forced to FAIL;
otherwise the verdict is PASS exactly when the KS p-value exceeds 0.05
and the relative sigma difference `|sigma_ref − sigma_test| / sigma_ref`
(the sentinel when `sigma_ref = 0`) is below the tolerance `tol`
(`sigma_threshold`, default 3.0 at the call site in `Supervisor.py`). -/
def compareHists (sqrtFn : ℚ → ℚ) (ks : List ℚ → List ℚ → ℚ × ℚ) (tol : ℚ)
    (href htest : Histogram) : ComparisonResult :=
  let xr := sampleExpansion href
  let xt := sampleExpansion htest
  let sr := histSigma sqrtFn href
  let st := histSigma sqrtFn htest
  let rel := if sr = 0 then sigmaSentinel else |sr - st| / sr
  if xr = [] ∨ xt = [] then
    ⟨histMean href, sr, histMean htest, st, |sr - st|, rel, 0, 0, false⟩
  else
    let s := ks xr xt
    ⟨histMean href, sr, histMean htest, st, |sr - st|, rel, s.1, s.2,
      decide (s.2 > 1/20 ∧ rel < tol)⟩

/-! ## Concrete instances used by counterexamples and witnesses -/

/-- A concrete test-run `DataFlow` (directory under `run_test`). -/
def dfW : DataFlow :=
  ⟨"sim.source", "g.geo.setup", "r.revan.cfg", "m.mimrec.cfg", "/algo/run_test"⟩

/-- Environment in which every external tool exits 0 and writes nothing. -/
def envAllOk : ToolEnv := ⟨fun _ fs => (0, fs)⟩

/-- Environment in which `revan` exits 1 and every other tool exits 0;
no tool writes anything. -/
def envRevanFails : ToolEnv :=
  ⟨fun cmd fs => (if cmd.head? = some "revan" then 1 else 0, fs)⟩

/-- A filesystem holding an unparseable `spectrum.C` for `dfW`. -/
def fsJunk : FS := [("/algo/run_test/results/spectrum.C", "hello")]

/-- A well-formed two-bin macro text. -/
def sExample : String :=
  "std::vector<Double_t> xaxis\x7b0, 1, 2\x7d;\nh->SetBinContent(1, 5.0);"

/-- `true` when the macro text has no locatable bin-edges declaration or
fewer than 2 numeric edge values — the premise of claim C4. -/
def edgesUnusable (s : String) : Bool :=
  match findVecBody s.data with
  | none => true
  | some body => decide ((parseEdges body).length < 2)

/-- A concrete non-degenerate histogram (two unit-count bins). -/
def hW : Histogram := ⟨[1, 1], [0, 1, 2]⟩

/-- A concrete all-zero histogram (its sample expansion is empty). -/
def hE : Histogram := ⟨[0], [0, 1]⟩

/-- A stand-in square-root primitive (the claims hold for every choice). -/
def sqrtW : ℚ → ℚ := fun q => q

/-- A stand-in KS procedure returning statistic 0, p-value 1. -/
def ksW : List ℚ → List ℚ → ℚ × ℚ := fun _ _ => (0, 1)

/-- A second stand-in KS procedure, distinguishable from `ksW`. -/
def ksW2 : List ℚ → List ℚ → ℚ × ℚ := fun _ _ => (1, 0)

/-! ## Helper lemmas -/

theorem splitOnce_snd_lt (sep : List Char) :
    ∀ (s : List Char) (p : List Char × List Char),
      splitOnce sep s = some p → p.2.length < s.length := by
  intro s
  induction s with
  | nil => intro p h; rw [splitOnce] at h; exact Option.noConfusion h
  | cons c rest ih =>
    intro p h
    rw [splitOnce] at h
    split at h
    · cases h
      simp only [List.length_drop, List.length_cons]
      omega
    · cases hq : splitOnce sep rest with
      | none => rw [hq] at h; simp at h
      | some q =>
        rw [hq] at h
        simp only [Option.map_some'] at h
        cases h
        have := ih q hq
        simp only [List.length_cons]
        omega

/-- With enough fuel `splitAllFuel` is fuel-independent, so the fuel
`s.length` used by `splitAll` is always sufficient. -/
theorem splitAllFuel_congr (sep : List Char) :
    ∀ (f g : Nat) (s : List Char), s.length ≤ f → s.length ≤ g →
      splitAllFuel sep f s = splitAllFuel sep g s := by
  intro f
  induction f with
  | zero =>
    intro g s hf _
    have hs : s = [] := List.eq_nil_of_length_eq_zero (Nat.le_zero.mp hf)
    subst hs
    cases g with
    | zero => rfl
    | succ g =>
      simp only [splitAllFuel]
      rw [splitOnce]
  | succ f ih =>
    intro g s hf hg
    cases g with
    | zero =>
      have hs : s = [] := List.eq_nil_of_length_eq_zero (Nat.le_zero.mp hg)
      subst hs
      simp only [splitAllFuel]
      rw [splitOnce]
    | succ g =>
      simp only [splitAllFuel]
      cases hp : splitOnce sep s with
      | none => rfl
      | some p =>
        have hlt := splitOnce_snd_lt sep s p hp
        have h1 : p.2.length ≤ f := by omega
        have h2 : p.2.length ≤ g := by omega
        exact congrArg (p.1 :: ·) (ih g p.2 h1 h2)

/-- `splitAll` satisfies the natural unfolding at an occurrence of the
separator. -/
theorem splitAll_eq_cons (sep s : List Char) (p : List Char × List Char)
    (hp : splitOnce sep s = some p) :
    splitAll sep s = p.1 :: splitAll sep p.2 := by
  have hlt := splitOnce_snd_lt sep s p hp
  cases hs : s.length with
  | zero =>
    exfalso
    omega
  | succ n =>
    unfold splitAll
    rw [hs]
    simp only [splitAllFuel, hp]
    exact congrArg _ (splitAllFuel_congr sep n p.2.length p.2 (by omega) (by omega))

theorem applyLine_length (n : Nat) (bins : List ℚ) (line : List Char) :
    (applyLine n bins line).length = bins.length := by
  unfold applyLine
  cases parseSetBin line with
  | none => rfl
  | some iv =>
    simp only
    split
    · exact List.length_set bins _ _
    · rfl

theorem processLines_length (n : Nat) :
    ∀ (ls : List (List Char)) (bins : List ℚ),
      (processLines n ls bins).length = bins.length := by
  intro ls
  induction ls with
  | nil => intro bins; rfl
  | cons l ls ih =>
    intro bins
    unfold processLines at ih ⊢
    simp only [List.foldl_cons]
    rw [ih (applyLine n bins l), applyLine_length]

theorem fsRead_fsWrite_self (fs : FS) (p t : String) :
    fsRead (fsWrite fs p t) p = some t := by
  simp [fsRead, fsWrite, List.lookup]

/-- A line that does not parse to an assignment with index `idx`
(in-range) leaves position `idx - 1` unchanged. -/
theorem applyLine_get_preserved (n : Nat) (idx : Int)
    (h1 : 1 ≤ idx) (_h2 : idx ≤ (n : Int)) (b : List ℚ) (l : List Char)
    (hno : ∀ v : ℚ, parseSetBin l ≠ some (idx, v)) :
    (applyLine n b l)[(idx - 1).toNat]? = b[(idx - 1).toNat]? := by
  unfold applyLine
  cases hp : parseSetBin l with
  | none => rfl
  | some iv =>
    simp only
    split
    · rename_i hin
      have hne : iv.1 ≠ idx := by
        intro he
        exact hno iv.2 (by rw [hp]; exact congrArg some (by cases iv; simp_all))
      apply List.getElem?_set_ne
      omega
    · rfl

/-- Folding lines none of which assigns index `idx` leaves position
`idx - 1` unchanged. -/
theorem processLines_get_preserved (n : Nat) (idx : Int)
    (h1 : 1 ≤ idx) (h2 : idx ≤ (n : Int)) :
    ∀ (ls : List (List Char)) (b : List ℚ),
      (∀ l ∈ ls, ∀ v : ℚ, parseSetBin l ≠ some (idx, v)) →
      (processLines n ls b)[(idx - 1).toNat]? = b[(idx - 1).toNat]? := by
  intro ls
  induction ls with
  | nil => intro b _; rfl
  | cons l ls ih =>
    intro b hno
    unfold processLines at ih ⊢
    simp only [List.foldl_cons]
    rw [ih (applyLine n b l) (fun x hx => hno x (List.mem_cons_of_mem l hx))]
    exact applyLine_get_preserved n idx h1 h2 b l (hno l (List.mem_cons_self l ls))

/-! ## Claims -/

/-- C6: for a parsed edge list of `n+1` edges and a line matching
`SetBinContent(I, V)`, the count array at position `I-1` is updated
exactly when `1 ≤ I ≤ n`: in range, position `I-1` becomes `V` and
every other position is unchanged; `I = 0`, `I = n+1` or any other
out-of-range index, and lines whose index or value fail to parse,
leave the whole array untouched. -/
theorem C6_line_update (n : Nat) (bins : List ℚ) (line : List Char)
    (hlen : bins.length = n) :
    (∀ idx val, parseSetBin line = some (idx, val) →
      ((1 ≤ idx ∧ idx ≤ (n : Int)) →
        (applyLine n bins line)[(idx - 1).toNat]? = some val ∧
        ∀ j : Nat, j ≠ (idx - 1).toNat →
          (applyLine n bins line)[j]? = bins[j]?) ∧
      (¬(1 ≤ idx ∧ idx ≤ (n : Int)) → applyLine n bins line = bins)) ∧
    (parseSetBin line = none → applyLine n bins line = bins) := by
  constructor
  · intro idx val hp
    constructor
    · intro hin
      unfold applyLine
      rw [hp]
      simp only [if_pos hin]
      constructor
      · have hlt : (idx - 1).toNat < bins.length := by omega
        exact List.getElem?_set_self hlt
      · intro j hj
        exact List.getElem?_set_ne (Ne.symm hj)
    · intro hout
      unfold applyLine
      rw [hp]
      simp only [if_neg hout]
  · intro hp
    unfold applyLine
    rw [hp]

/-- Witness for C6 at `n = 2`, `bins = [3, 4]`: the in-range line
`SetBinContent(1, 5.0)` sets position 0 to 5 and leaves position 1
alone; the underflow line `SetBinContent(0, 9.0)` changes nothing. -/
theorem C6_witness :
    ([3, 4] : List ℚ).length = 2 ∧
    parseSetBin "h->SetBinContent(1, 5.0);".data = some (1, 5) ∧
    (applyLine 2 [3, 4] "h->SetBinContent(1, 5.0);".data)[((1 : Int) - 1).toNat]?
      = some 5 ∧
    (applyLine 2 [3, 4] "h->SetBinContent(1, 5.0);".data)[1]? = ([3, 4] : List ℚ)[1]? ∧
    parseSetBin "h->SetBinContent(0, 9.0);".data = some (0, 9) ∧
    applyLine 2 [3, 4] "h->SetBinContent(0, 9.0);".data = [3, 4] := by
  have hp1 : parseSetBin "h->SetBinContent(1, 5.0);".data = some (1, 5) := by
    with_unfolding_all rfl
  have hp0 : parseSetBin "h->SetBinContent(0, 9.0);".data = some (0, 9) := by
    with_unfolding_all rfl
  have hlen : ([3, 4] : List ℚ).length = 2 := rfl
  have T := C6_line_update 2 [3, 4] "h->SetBinContent(1, 5.0);".data hlen
  have T0 := C6_line_update 2 [3, 4] "h->SetBinContent(0, 9.0);".data hlen
  have hin : (1 ≤ (1 : Int) ∧ (1 : Int) ≤ ((2 : Nat) : Int)) := by decide
  have hmain := (T.1 1 5 hp1).1 hin
  refine ⟨hlen, hp1, hmain.1, hmain.2 1 (by decide), hp0, ?_⟩
  exact (T0.1 0 9 hp0).2 (by decide)

/-- C10: when several `SetBinContent` lines share the same in-range
index `I`, the extracted count at position `I-1` is the value of the
last such line in file order — assignment overwrites, values are never
accumulated. -/
theorem C10_last_assignment_wins (n : Nat) (bins : List ℚ)
    (l₁ l₂ : List (List Char)) (line : List Char) (idx : Int) (val : ℚ)
    (hlen : bins.length = n)
    (hp : parseSetBin line = some (idx, val))
    (h1 : 1 ≤ idx) (h2 : idx ≤ (n : Int))
    (hlater : ∀ l ∈ l₂, ∀ v : ℚ, parseSetBin l ≠ some (idx, v)) :
    (processLines n (l₁ ++ line :: l₂) bins)[(idx - 1).toNat]? = some val := by
  unfold processLines
  rw [List.foldl_append]
  simp only [List.foldl_cons]
  have hbase := processLines_get_preserved n idx h1 h2 l₂
    (applyLine n (List.foldl (applyLine n) bins l₁) line) hlater
  unfold processLines at hbase
  rw [hbase]
  have hset : applyLine n (List.foldl (applyLine n) bins l₁) line
      = (List.foldl (applyLine n) bins l₁).set (idx - 1).toNat val := by
    unfold applyLine
    rw [hp]
    simp only [if_pos (And.intro h1 h2)]
  rw [hset]
  apply List.getElem?_set_self
  have hfold : (List.foldl (applyLine n) bins l₁).length = n := by
    have hpl := processLines_length n l₁ bins
    unfold processLines at hpl
    omega
  omega

/-- Witness for C10: two lines both assigning index 1; the final count
at position 0 is the second line's value 7.5, not 2.0 and not their
sum. -/
theorem C10_witness :
    parseSetBin "SetBinContent(1, 2.0)".data = some (1, 2) ∧
    parseSetBin "SetBinContent(1, 7.5)".data = some (1, 15/2) ∧
    (processLines 2
      (["SetBinContent(1, 2.0)".data] ++ "SetBinContent(1, 7.5)".data :: [])
      [0, 0])[((1 : Int) - 1).toNat]? = some (15/2) := by
  have hpa : parseSetBin "SetBinContent(1, 2.0)".data = some (1, 2) := by
    with_unfolding_all rfl
  have hpb : parseSetBin "SetBinContent(1, 7.5)".data = some (1, 15/2) := by
    with_unfolding_all rfl
  refine ⟨hpa, hpb, ?_⟩
  exact C10_last_assignment_wins 2 [0, 0] ["SetBinContent(1, 2.0)".data] []
    "SetBinContent(1, 7.5)".data 1 (15/2) rfl hpb (by decide) (by decide)
    (by intro l hl; cases hl)

/-- C8: every histogram the extractor builds satisfies
`len(edges) == len(counts) + 1`; the persisted interchange record has
exactly the keys `bins` and `edges`, and it is what
`extract_energy_list` writes to `energy_hist.json`. -/
theorem C8_hist_invariant (s : String) (bins edges : List ℚ)
    (h : extractHistFromText s = some (bins, edges)) :
    edges.length = bins.length + 1 ∧
    (histRecord bins edges).map Prod.fst = ["bins", "edges"] ∧
    ∀ (df : DataFlow) (st : PipeState),
      fsRead st.fs (output_dir df ++ "/spectrum.C") = some s →
      fsRead (extract_energy_list df st).fs (output_dir df ++ "/energy_hist.json")
        = some (renderHistRecord (histRecord bins edges)) := by
  have hlen : edges.length = bins.length + 1 := by
    unfold extractHistFromText at h
    cases hv : findVecBody s.data with
    | none => rw [hv] at h; exact Option.noConfusion h
    | some body =>
      rw [hv] at h
      simp only at h
      split at h
      · exact Option.noConfusion h
      · rename_i hge
        have hb : bins = processLines (List.length (parseEdges body) - 1)
            (splitAll [nlChar] s.data)
            (List.replicate (List.length (parseEdges body) - 1) (0 : ℚ)) ∧
            edges = parseEdges body := by
          cases h
          exact ⟨rfl, rfl⟩
        rw [hb.1, hb.2]
        rw [processLines_length, List.length_replicate]
        omega
  refine ⟨hlen, rfl, ?_⟩
  intro df st hread
  simp only [extract_energy_list, hread, h]
  exact fsRead_fsWrite_self _ _ _

/-- Witness for C8 on a concrete two-bin macro text. -/
theorem C8_witness :
    extractHistFromText sExample = some ([5, 0], [0, 1, 2]) ∧
    ([0, 1, 2] : List ℚ).length = ([5, 0] : List ℚ).length + 1 ∧
    (histRecord [5, 0] [0, 1, 2]).map Prod.fst = ["bins", "edges"] := by
  have h : extractHistFromText sExample = some ([5, 0], [0, 1, 2]) := by
    with_unfolding_all rfl
  have T := C8_hist_invariant sExample [5, 0] [0, 1, 2] h
  exact ⟨h, T.1, T.2.1⟩

/-- C9: the run-type label in output artifact names is `"reference"`
exactly when the substring `"run_ref"` occurs in the run directory
path and `"test"` otherwise; both the energy text file and the spectrum
PNG names are built from that label, which is a function of the
directory path alone (no run-kind parameter exists in the source). -/
theorem C9_run_type_from_path (d : String) (df : DataFlow) :
    (run_type_of d = "reference" ↔ containsSub "run_ref".data d.data = true) ∧
    (run_type_of d = "test" ↔ containsSub "run_ref".data d.data = false) ∧
    energy_out_file df = output_dir df ++ "/" ++ run_type_of df.dir ++ "_energy.txt" ∧
    spectrum_png_path df = output_dir df ++ "/" ++ run_type_of df.dir ++ "_spectrum.png" := by
  refine ⟨?_, ?_, rfl, rfl⟩ <;>
  · unfold run_type_of
    cases h : containsSub "run_ref".data d.data <;> simp [h]

/-- C1: for every pair of histograms whose sample expansions are
non-empty (and whose reference sigma is non-zero, so the relative
difference is the quotient and not the sentinel), the verdict is PASS
exactly when the KS p-value exceeds 0.05 AND the relative sigma
difference `|sigma_ref − sigma_test| / sigma_ref` is below the
tolerance; this holds for every square-root primitive and every KS
procedure, so no other statistic influences the verdict. -/
theorem C1_verdict_policy (sqrtFn : ℚ → ℚ) (ks : List ℚ → List ℚ → ℚ × ℚ)
    (tol : ℚ) (href htest : Histogram)
    (h1 : sampleExpansion href ≠ []) (h2 : sampleExpansion htest ≠ [])
    (h3 : histSigma sqrtFn href ≠ 0) :
    ((compareHists sqrtFn ks tol href htest).pass = true ↔
      ((ks (sampleExpansion href) (sampleExpansion htest)).2 > 1/20 ∧
        |histSigma sqrtFn href - histSigma sqrtFn htest| / histSigma sqrtFn href
          < tol)) := by
  simp only [compareHists]
  rw [if_neg (by push_neg; exact ⟨h1, h2⟩), if_neg h3]
  simp only [decide_eq_true_eq]

/-- Witness for C1 at a concrete non-degenerate histogram pair. -/
theorem C1_witness :
    sampleExpansion hW ≠ [] ∧ histSigma sqrtW hW ≠ 0 ∧
    ((compareHists sqrtW ksW 3 hW hW).pass = true ↔
      ((ksW (sampleExpansion hW) (sampleExpansion hW)).2 > 1/20 ∧
        |histSigma sqrtW hW - histSigma sqrtW hW| / histSigma sqrtW hW < 3)) := by
  have h1 : sampleExpansion hW ≠ [] := by with_unfolding_all decide
  have h3 : histSigma sqrtW hW ≠ 0 := by with_unfolding_all decide
  exact ⟨h1, h3, C1_verdict_policy sqrtW ksW 3 hW hW h1 h1 h3⟩

/-- C2: with both expansions non-empty, the KS statistic and p-value in
the result are exactly the KS procedure applied to the two expanded
sequences, where the expansion of a histogram repeats each bin center
`floor(count)` times (truncated to a non-negative integer). -/
theorem C2_ks_on_expanded (sqrtFn : ℚ → ℚ) (ks : List ℚ → List ℚ → ℚ × ℚ)
    (tol : ℚ) (href htest : Histogram)
    (h1 : sampleExpansion href ≠ []) (h2 : sampleExpansion htest ≠ []) :
    (compareHists sqrtFn ks tol href htest).ks_stat
      = (ks (sampleExpansion href) (sampleExpansion htest)).1 ∧
    (compareHists sqrtFn ks tol href htest).ks_p
      = (ks (sampleExpansion href) (sampleExpansion htest)).2 ∧
    sampleExpansion href = ((List.zip (binCenters href.edges) href.counts).map
      (fun p => List.replicate p.2.floor.toNat p.1)).flatten := by
  refine ⟨?_, ?_, rfl⟩ <;>
  · simp only [compareHists]
    rw [if_neg (by push_neg; exact ⟨h1, h2⟩)]

/-- Witness for C2 at a concrete non-degenerate histogram pair. -/
theorem C2_witness :
    sampleExpansion hW ≠ [] ∧
    ((compareHists sqrtW ksW 3 hW hW).ks_stat
      = (ksW (sampleExpansion hW) (sampleExpansion hW)).1 ∧
    (compareHists sqrtW ksW 3 hW hW).ks_p
      = (ksW (sampleExpansion hW) (sampleExpansion hW)).2 ∧
    sampleExpansion hW = ((List.zip (binCenters hW.edges) hW.counts).map
      (fun p => List.replicate p.2.floor.toNat p.1)).flatten) := by
  have h1 : sampleExpansion hW ≠ [] := by with_unfolding_all decide
  exact ⟨h1, C2_ks_on_expanded sqrtW ksW 3 hW hW h1 h1⟩

/-- C7: when either expanded sequence is empty, the KS statistic and
p-value are reported as 0, the verdict is forced to FAIL, and the
result does not depend on the KS procedure at all (the test is not
run). -/
theorem C7_empty_forces_fail (sqrtFn : ℚ → ℚ)
    (ks ksAlt : List ℚ → List ℚ → ℚ × ℚ) (tol : ℚ) (href htest : Histogram)
    (h : sampleExpansion href = [] ∨ sampleExpansion htest = []) :
    (compareHists sqrtFn ks tol href htest).ks_stat = 0 ∧
    (compareHists sqrtFn ks tol href htest).ks_p = 0 ∧
    (compareHists sqrtFn ks tol href htest).pass = false ∧
    compareHists sqrtFn ks tol href htest
      = compareHists sqrtFn ksAlt tol href htest := by
  simp only [compareHists]
  simp [if_pos h]

/-- Witness for C7 on an all-zero reference histogram (empty
expansion) against a non-degenerate test histogram. -/
theorem C7_witness :
    (sampleExpansion hE = [] ∨ sampleExpansion hW = []) ∧
    ((compareHists sqrtW ksW 3 hE hW).ks_stat = 0 ∧
    (compareHists sqrtW ksW 3 hE hW).ks_p = 0 ∧
    (compareHists sqrtW ksW 3 hE hW).pass = false ∧
    compareHists sqrtW ksW 3 hE hW = compareHists sqrtW ksW2 3 hE hW) := by
  have h : sampleExpansion hE = [] ∨ sampleExpansion hW = [] := by
    left
    with_unfolding_all rfl
  exact ⟨h, C7_empty_forces_fail sqrtW ksW ksW2 3 hE hW h⟩

/-- C3 counterexample: in an environment where every tool exits 0 but
creates no files, the reconstruction stage completes successfully even
though its declared output artifact (the `.tra.gz` file) does not exist
afterwards, and the pipeline goes on to invoke stage 3 (`mimrec`)
instead of failing at the reconstruction stage — refuting "a zero exit
code alone does NOT satisfy the contract". -/
theorem C3_counterexample :
    isOkB (run_reconstruction dfW envAllOk ⟨[], []⟩).2 = true ∧
    fsExists (run_reconstruction dfW envAllOk ⟨[], []⟩).1.fs
      (pathJoin dfW.dir (tra_file dfW)) = false ∧
    mimrec_cmd dfW ∈ (run_full_pipeline dfW envAllOk []).1.trace := by
  refine ⟨?_, ?_, ?_⟩
  · with_unfolding_all rfl
  · with_unfolding_all rfl
  · with_unfolding_all decide

/-- C3 (amended): a stage succeeds exactly when its subprocess exit
code is zero; neither the reconstruction stage nor the spectrum-macro
stage checks for its output artifact afterwards (missing input
artifacts only produce a printed warning), so a zero exit with a
missing artifact is not failed by these stages — only the later
PNG-render step verifies its own output. -/
theorem C3_amended_exit_code_only (df : DataFlow) (env : ToolEnv) (st : PipeState) :
    isOkB (run_reconstruction df env st).2
      = decide ((env.run (revan_cmd df) st.fs).1 = 0) ∧
    isOkB (run_spectrum_stage df env st).2
      = decide ((env.run (mimrec_cmd df) st.fs).1 = 0) := by
  constructor
  · unfold run_reconstruction run_command
    by_cases h : (env.run (revan_cmd df) st.fs).1 = 0 <;> simp [h, isOkB]
  · unfold run_spectrum_stage run_command
    by_cases h : (env.run (mimrec_cmd df) st.fs).1 = 0 <;>
      simp [h, isOkB, Except.map]

/-- C4 counterexample: on a macro text with no bin-edges declaration the
extractor yields nothing, and `extract_energy_list` returns normally
with the state unchanged — no exception of any kind is raised, refuting
"fails with a fatal ParseError rather than degrading gracefully". -/
theorem C4_counterexample :
    extractHistFromText "hello" = none ∧
    extract_energy_list dfW ⟨fsJunk, []⟩ = ⟨fsJunk, []⟩ := by
  constructor
  · with_unfolding_all rfl
  · with_unfolding_all rfl

/-- C4 (amended): when no bin-edges declaration can be located or fewer
than 2 numeric edge values are found, extraction produces no histogram
and `extract_energy_list` prints a diagnostic and returns with the
filesystem unchanged — the failure is graceful, not a raised
ParseError. -/
theorem C4_amended_graceful (df : DataFlow) (st : PipeState) (s : String)
    (hread : fsRead st.fs (output_dir df ++ "/spectrum.C") = some s)
    (hbad : edgesUnusable s = true) :
    extractHistFromText s = none ∧ extract_energy_list df st = st := by
  have hnone : extractHistFromText s = none := by
    unfold extractHistFromText
    unfold edgesUnusable at hbad
    cases hv : findVecBody s.data with
    | none => rfl
    | some body =>
      rw [hv] at hbad
      simp only [decide_eq_true_eq] at hbad
      simp only [if_pos hbad]
  refine ⟨hnone, ?_⟩
  simp only [extract_energy_list, hread, hnone]

/-- Witness for the amended C4 on the concrete junk artifact. -/
theorem C4_witness :
    fsRead (⟨fsJunk, []⟩ : PipeState).fs (output_dir dfW ++ "/spectrum.C")
      = some "hello" ∧
    edgesUnusable "hello" = true ∧
    (extractHistFromText "hello" = none ∧
      extract_energy_list dfW ⟨fsJunk, []⟩ = ⟨fsJunk, []⟩) := by
  have hr : fsRead (⟨fsJunk, []⟩ : PipeState).fs (output_dir dfW ++ "/spectrum.C")
      = some "hello" := by with_unfolding_all rfl
  have hb : edgesUnusable "hello" = true := by with_unfolding_all rfl
  exact ⟨hr, hb, C4_amended_graceful dfW ⟨fsJunk, []⟩ "hello" hr hb⟩

/-- C5: whenever the stage-1 tool exits 0 and the stage-2 (`revan`)
tool exits non-zero, the pipeline halts with the stage-scoped
`RuntimeError` from `run_command`; the trace is exactly one `cosima`
invocation followed by one `revan` invocation — stage 3 (`mimrec`) is
never invoked and the failed stage is never retried. -/
theorem C5_stage2_failure_halts (df : DataFlow) (env : ToolEnv) (fs0 : FS)
    (h1 : ∀ fs, (env.run (cosima_cmd df) fs).1 = 0)
    (h2 : ∀ fs, (env.run (revan_cmd df) fs).1 ≠ 0) :
    (run_full_pipeline df env fs0).1.trace = [cosima_cmd df, revan_cmd df] ∧
    isCmdFailedB (run_full_pipeline df env fs0).2 = true := by
  unfold run_full_pipeline run_simulation run_reconstruction run_command
  simp only [h1, if_pos]
  simp only [if_neg (h2 _)]
  simp [isCmdFailedB]

/-- Witness for C5: with `envRevanFails` the pipeline for `dfW` stops
after exactly `[cosima, revan]` with a command-failure error. -/
theorem C5_witness :
    (run_full_pipeline dfW envRevanFails []).1.trace
      = [cosima_cmd dfW, revan_cmd dfW] ∧
    isCmdFailedB (run_full_pipeline dfW envRevanFails []).2 = true :=
  C5_stage2_failure_halts dfW envRevanFails []
    (fun fs => by with_unfolding_all rfl)
    (fun fs => by
      have h1 : (envRevanFails.run (revan_cmd dfW) fs).1 = 1 := by
        with_unfolding_all rfl
      omega)

end URAP
